import Mathlib

/-!
Verification of the IVSHMEM shared-memory library (TypicalAM/ivshmem).

The Go sources are shallowly embedded: Go strings become `List Char`,
fallible calls become `Except`/`Option` values, and operating-system calls
(`os.Stat`, `unix.Mmap`, `DeviceIoControl`, registry reads, ...) are
abstracted into oracle structures that fix each call's outcome, so that the
library's own control flow stays fully executable and provable.
-/

namespace Ivshmem

/-- Go strings, viewed as their character lists. -/
abbrev GoStr := List Char

/-! ### Go string primitives used by the sources -/

/-- Accumulator-based splitter; `acc` holds the current chunk reversed. -/
def splitOnAux (sep : Char) : List Char → List Char → List GoStr
  | [], acc => [acc.reverse]
  | c :: cs, acc =>
    if c = sep then acc.reverse :: splitOnAux sep cs []
    else splitOnAux sep cs (c :: acc)

/-- Go `strings.Split(s, sep)` for a one-character separator:
`splitOn ':' "a:b"` is `["a", "b"]`, and the empty string yields `[""]`. -/
def splitOn (sep : Char) (s : GoStr) : List GoStr :=
  splitOnAux sep s []

/-- ASCII white space as recognised by Go `unicode.IsSpace`; the inputs the
library handles contain only ASCII, so the Unicode spaces are irrelevant. -/
def isSpaceB (c : Char) : Bool :=
  c = ' ' || c = '\t' || c = '\n' || c = '\x0b' || c = '\x0c' || c = '\r'

/-- Worker for `fields`; `acc` holds the current token reversed. -/
def fieldsAux : List Char → List Char → List GoStr
  | [], acc => if acc.isEmpty then [] else [acc.reverse]
  | c :: cs, acc =>
    if isSpaceB c then
      if acc.isEmpty then fieldsAux cs []
      else acc.reverse :: fieldsAux cs []
    else fieldsAux cs (c :: acc)

/-- Go `strings.Fields`: split around runs of white space, dropping empties. -/
def fields (s : GoStr) : List GoStr :=
  fieldsAux s []

/-- Go `strings.TrimSpace` restricted to ASCII white space. -/
def trimSpace (s : GoStr) : GoStr :=
  ((s.dropWhile isSpaceB).reverse.dropWhile isSpaceB).reverse

/-- Value of one hexadecimal digit, lower or upper case. -/
def hexDigit? (c : Char) : Option Nat :=
  if '0' ≤ c ∧ c ≤ '9' then some (c.toNat - 48)
  else if 'a' ≤ c ∧ c ≤ 'f' then some (c.toNat - 97 + 10)
  else if 'A' ≤ c ∧ c ≤ 'F' then some (c.toNat - 65 + 10)
  else none

/-- Accumulate the value of a hex digit string; fails on any non-digit. -/
def hexValAux : List Char → Nat → Option Nat
  | [], acc => some acc
  | c :: cs, acc =>
    match hexDigit? c with
    | some d => hexValAux cs (acc * 16 + d)
    | none => none

/-- Go `strconv.ParseUint(s, 16, 8)` as the callers use it: with the base
given explicitly no `0x` prefix is accepted, the empty string and any
non-hex character fail, and a value above `2^8 - 1` is a range error, which
every caller treats as a failure (Go returns `ErrRange`, not a truncated
value). -/
def parseUintHex8 (s : GoStr) : Option Nat :=
  if s.isEmpty then none
  else
    match hexValAux s 0 with
    | none => none
    | some v => if v ≤ 255 then some v else none

/-- Value of one decimal digit. -/
def decDigit? (c : Char) : Option Nat :=
  if '0' ≤ c ∧ c ≤ '9' then some (c.toNat - 48) else none

/-- Accumulate the value of a decimal digit string; fails on any non-digit. -/
def decValAux : List Char → Nat → Option Nat
  | [], acc => some acc
  | c :: cs, acc =>
    match decDigit? c with
    | some d => decValAux cs (acc * 10 + d)
    | none => none

/-- Largest value of Go's 64-bit `int`. -/
def MAX_INT64 : Nat := 2 ^ 63 - 1

/-- Go `strconv.Atoi`: an optional sign followed by decimal digits; the empty
string, a lone sign, a non-digit, or 64-bit overflow fail. -/
def atoiGo (s : GoStr) : Option Int :=
  match s with
  | [] => none
  | c :: rest =>
    if c = '+' then
      if rest = [] then none
      else
        match decValAux rest 0 with
        | some v => if v ≤ MAX_INT64 then some (v : Int) else none
        | none => none
    else if c = '-' then
      if rest = [] then none
      else
        match decValAux rest 0 with
        | some v => if v ≤ MAX_INT64 + 1 then some (-(v : Int)) else none
        | none => none
    else
      match decValAux s 0 with
      | some v => if v ≤ MAX_INT64 then some (v : Int) else none
      | none => none

/-- Go conversion `uint8(i)` applied to an `int`: the low 8 bits of the
two's-complement value. -/
def intToUint8 (i : Int) : Nat := (i % 256).toNat

/-! ### PCILocation and the two location codecs -/

instance {ε α : Type} [DecidableEq ε] [DecidableEq α] : DecidableEq (Except ε α) := fun x y =>
  match x, y with
  | .ok a, .ok b =>
    if h : a = b then .isTrue (by rw [h]) else .isFalse (by simp [h])
  | .error e, .error f =>
    if h : e = f then .isTrue (by rw [h]) else .isFalse (by simp [h])
  | .ok _, .error _ => .isFalse (by simp)
  | .error _, .ok _ => .isFalse (by simp)

/-- PCI location triple; the Go fields are `uint8`, so each is below 256. -/
structure PCILocation where
  bus : Nat
  device : Nat
  function : Nat
deriving DecidableEq, Repr

/-- Failure cases of the sysfs-dialect parser `convertLocation`
(guest/guest_linux.go); each constructor is one of its `return nil, err`
sites. -/
inductive LocErr
  | invalidLocation
  | parseBus
  | invalidDevFunc
  | parseDevice
  | parseFunction
deriving DecidableEq, Repr

/-- `convertLocation` from guest/guest_linux.go: parse a PCI sysfs directory
name such as `"0000:08:00.0"`. Split on `:` expecting 3 parts, parse the bus
from part 1, split part 2 on `.` expecting 2 parts, parse device and
function; each numeric field goes through `strconv.ParseUint(_, 16, 8)`.
The final `uint8(...)` conversions are the `% 256` (identities here, since
`ParseUint` already bounds the values). -/
def convertLocation (locationDescription : GoStr) : Except LocErr PCILocation :=
  let parts := splitOn ':' locationDescription
  if parts.length ≠ 3 then .error .invalidLocation
  else
    match parseUintHex8 (parts.getD 1 []) with
    | none => .error .parseBus
    | some bus =>
      let devFunc := splitOn '.' (parts.getD 2 [])
      if devFunc.length ≠ 2 then .error .invalidDevFunc
      else
        match parseUintHex8 (devFunc.getD 0 []) with
        | none => .error .parseDevice
        | some device =>
          match parseUintHex8 (devFunc.getD 1 []) with
          | none => .error .parseFunction
          | some function => .ok ⟨bus % 256, device % 256, function % 256⟩

/-- Fuel-based worker for `natDec`; the fuel only forces structural
recursion and never runs out when it starts at least at `n + 1`. -/
def natDecAux : Nat → Nat → List Char
  | 0, _ => []
  | fuel + 1, n =>
    if n < 10 then [Nat.digitChar n]
    else natDecAux fuel (n / 10) ++ [Nat.digitChar (n % 10)]

/-- Decimal rendering of a natural number, as produced by Go's `%d` verb. -/
def natDec (n : Nat) : List Char := natDecAux (n + 1) n

/-- `PCILocation.String` from guest/common.go:
`fmt.Sprintf("PCI bus %d, device %d, function %d", p.bus, p.device, p.function)`. -/
def pciString (p : PCILocation) : GoStr :=
  "PCI bus ".data ++ natDec p.bus ++ ", device ".data ++ natDec p.device
    ++ ", function ".data ++ natDec p.function

/-- Failure cases of the Windows-dialect parser. -/
inductive WinLocErr
  | badTokenCount
  | badBus
  | badDevice
  | badFunction
deriving DecidableEq, Repr

/-- Go `string(s[0])`: the one-byte string holding the first byte. The
callers only reach this on nonempty ASCII tokens produced by
`strings.Fields`. -/
def firstByteStr (s : GoStr) : GoStr := s.take 1

/-- `convertLocation` from guest_windows.go (Windows dialect): tokenize
`"PCI bus 4, device 1, function 0"` on white space expecting 7 tokens;
bus and device come from the first byte of tokens 2 and 4 via
`strconv.Atoi`, the function from a full `Atoi` of token 6; the results go
through Go's `uint8(...)` conversion. -/
def convertLocationWin (windowsLocation : GoStr) : Except WinLocErr PCILocation :=
  let parts := fields windowsLocation
  if parts.length ≠ 7 then .error .badTokenCount
  else
    match atoiGo (firstByteStr (parts.getD 2 [])) with
    | none => .error .badBus
    | some bus =>
      match atoiGo (firstByteStr (parts.getD 4 [])) with
      | none => .error .badDevice
      | some device =>
        match atoiGo (parts.getD 6 []) with
        | none => .error .badFunction
        | some function => .ok ⟨intToUint8 bus, intToUint8 device, intToUint8 function⟩

/-! ### Sorting

The Go sources call `sort.Slice` with a comparator closure. The algorithm
`sort.Slice` runs is unspecified; its contract is that the slice ends up
sorted with respect to the comparator. We model it as insertion sort by the
same comparator, which realises that contract. -/

/-- Insert `x` into `l` before the first element `y` with `c x y = true`. -/
def insSorted (c : α → α → Bool) (x : α) : List α → List α
  | [] => [x]
  | y :: ys => if c x y then x :: y :: ys else y :: insSorted c x ys

/-- Model of Go `sort.Slice` with comparator `c`: insertion sort. -/
def sortBy (c : α → α → Bool) : List α → List α
  | [] => []
  | x :: xs => insSorted c x (sortBy c xs)

/-- The comparator closure passed to `sort.Slice` in `ListDevices`
(guest/guest_linux.go): bus, then device, then function; equal triples
compare `true`. -/
def locLess (a b : PCILocation) : Bool :=
  if a.bus < b.bus then true
  else if a.bus > b.bus then false
  else if a.device < b.device then true
  else if a.device > b.device then false
  else if a.function < b.function then true
  else if a.function > b.function then false
  else true

/-- Lexicographic order on PCI locations, the ascending order the spec
describes for the Linux enumeration. -/
def locLe (a b : PCILocation) : Prop :=
  a.bus < b.bus ∨
    (a.bus = b.bus ∧
      (a.device < b.device ∨ (a.device = b.device ∧ a.function ≤ b.function)))

/-! ### Linux device enumeration (guest/guest_linux.go)

`os.ReadDir`/`os.ReadFile` results are supplied by a directory oracle: one
`DirEntry` per directory entry, carrying the outcomes of reading its
`vendor` and `device` files. -/

/-- One entry of the PCI devices directory, together with the outcomes of
the `os.ReadFile` calls on its `vendor` and `device` id files. -/
structure DirEntry where
  name : GoStr
  vendorFile : Except Unit GoStr
  deviceFile : Except Unit GoStr
deriving DecidableEq

/-- Failure cases of `listIvshmemPCIRaw`: `os.ReadDir` failing, or a
`vendor`/`device` file read failing. -/
inductive RawListErr
  | dirRead
  | vendorRead
  | deviceRead
deriving DecidableEq, Repr

/-- Go constant `IVSHMEM_VENDOR = "0x1af4"`. -/
def IVSHMEM_VENDOR : GoStr := "0x1af4".data

/-- Go constant `IVSHMEM_DEVICE = "0x1110"`. -/
def IVSHMEM_DEVICE : GoStr := "0x1110".data

/-- The name filter of `listIvshmemPCIRaw`: 12 characters, and splitting on
`:` yields 3 parts. -/
def isPCIName (n : GoStr) : Bool :=
  n.length = 12 && (splitOn ':' n).length = 3

/-- Second loop of `listIvshmemPCIRaw`: read each candidate's `vendor` and
`device` files, abort on any read error, skip entries whose ids do not
match, and keep the names of the matching ones. -/
def ivshmemFilter : List DirEntry → Except RawListErr (List GoStr)
  | [] => .ok []
  | e :: es =>
    match e.vendorFile with
    | .error _ => .error .vendorRead
    | .ok vdata =>
      if trimSpace vdata ≠ IVSHMEM_VENDOR then ivshmemFilter es
      else
        match e.deviceFile with
        | .error _ => .error .deviceRead
        | .ok ddata =>
          if trimSpace ddata ≠ IVSHMEM_DEVICE then ivshmemFilter es
          else (ivshmemFilter es).map (e.name :: ·)

/-- `listIvshmemPCIRaw` from guest/guest_linux.go: list the PCI directory,
keep the 12-character 3-segment names, then keep those whose vendor and
device ids match the IVSHMEM pair; a read error on any candidate's id file
aborts the whole call. -/
def listIvshmemPCIRaw (dirRes : Except Unit (List DirEntry)) :
    Except RawListErr (List GoStr) :=
  match dirRes with
  | .error _ => .error .dirRead
  | .ok entries => ivshmemFilter (entries.filter (fun e => isPCIName e.name))

/-- The conversion loop of `ListDevices` (guest/guest_linux.go): convert
each raw name, printing and skipping the ones that fail to parse. -/
def convertLoop : List GoStr → List PCILocation
  | [] => []
  | n :: ns =>
    match convertLocation n with
    | .error _ => convertLoop ns
    | .ok loc => loc :: convertLoop ns

/-- `ListDevices` from guest/guest_linux.go: raw listing, skip-on-parse
conversion, then `sort.Slice` with the bus/device/function comparator. -/
def ListDevices (dirRes : Except Unit (List DirEntry)) :
    Except RawListErr (List PCILocation) :=
  match listIvshmemPCIRaw dirRes with
  | .error err => .error err
  | .ok devices => .ok (sortBy locLess (convertLoop devices))

/-! ### Windows device enumeration (guest_windows.go)

`SetupDiEnumDeviceInfo` stops the loop with `ERROR_NO_MORE_ITEMS`; the
oracle is the finite list of enumerated entries, each carrying the outcomes
of its three registry-property reads. -/

/-- One enumerated device-info entry with the outcomes of its
`SetupDiGetDeviceRegistryProperty` calls (`SPDRP_BUSNUMBER`,
`SPDRP_ADDRESS`, `SPDRP_LOCATION_INFORMATION`); the two numeric properties
are `uint32` values. -/
structure WinRawDev where
  busNumber : Except Unit Nat
  busAddress : Except Unit Nat
  locationInfo : Except Unit GoStr
deriving DecidableEq

/-- Failure cases of `getIvshmemDevices`. -/
inductive WinListErr
  | enumInfo
  | busNumberRead
  | busAddressRead
  | locationRead
  | locationConvert (e : WinLocErr)
deriving DecidableEq, Repr

/-- `deviceData` from guest_windows.go, restricted to the fields the claims
touch: the decoded location and the numeric sort key. -/
structure WinDeviceData where
  loc : PCILocation
  busAddr : Nat
deriving DecidableEq, Repr

/-- The sort key `uint64(busNumber) << 32 | uint64(busAddress)` built from
two `uint32` registry values. -/
def busKey (busNumber busAddress : Nat) : Nat :=
  (busNumber % 2 ^ 32) * 2 ^ 32 + busAddress % 2 ^ 32

/-- The enumeration loop of `getIvshmemDevices`: read the three registry
properties of each entry, decode the location, abort on any failure. -/
def winEnumLoop : List WinRawDev → Except WinListErr (List WinDeviceData)
  | [] => .ok []
  | d :: ds =>
    match d.busNumber with
    | .error _ => .error .busNumberRead
    | .ok bn =>
      match d.busAddress with
      | .error _ => .error .busAddressRead
      | .ok ba =>
        match d.locationInfo with
        | .error _ => .error .locationRead
        | .ok raw =>
          match convertLocationWin raw with
          | .error e => .error (.locationConvert e)
          | .ok loc => (winEnumLoop ds).map (⟨loc, busKey bn ba⟩ :: ·)

/-- `getIvshmemDevices` from guest_windows.go: enumerate, then `sort.Slice`
ascending by the numeric bus address. -/
def getIvshmemDevices (devs : List WinRawDev) :
    Except WinListErr (List WinDeviceData) :=
  match winEnumLoop devs with
  | .error e => .error e
  | .ok datas => .ok (sortBy (fun a b => a.busAddr < b.busAddr) datas)

/-- `ListDevices` from guest_windows.go: project the sorted device data to
its locations (the `SetupDiGetClassDevsEx` outcome is the oracle's
`devInfoSet` argument, modelled as the entry list itself). -/
def ListDevicesWin (devs : List WinRawDev) : Except WinListErr (List PCILocation) :=
  match getIvshmemDevices devs with
  | .error e => .error e
  | .ok datas => .ok (datas.map (·.loc))

/-! ### Endpoint state machines

Mapped regions are abstracted to numeric region ids handed out by the OS
oracle (a Go nil slice is id 0). Methods with a Go pointer receiver return
the updated state; methods with a value receiver run their body on a copy,
so the caller-visible state is always the unchanged receiver — each such
method is split into a `...Body` (the literal method body, including its
writes to the copy) and the caller-visible wrapper that discards the copy. -/

/-- Errors of the map/unmap state machines across the endpoints; the
`...Fail` constructors are the wrapped OS-call failures. -/
inductive EndpointErr
  | alreadyMapped
  | alreadyUnmapped
  | statFail
  | openFail
  | mmapFail
  | munmapFail
  | sizeIoctlFail
  | mmapIoctlFail
  | releaseIoctlFail
  | closeFail
deriving DecidableEq, Repr

/-- Oracle for the POSIX calls of the Linux paths: `os.Stat` (yielding the
file size), `os.OpenFile`, `unix.Mmap` (yielding a region id), and
`unix.Munmap`. -/
structure LinuxOS where
  statRes : Except Unit Nat
  openRes : Except Unit Unit
  mmapRes : Except Unit Nat
  munmapRes : Except Unit Unit
deriving DecidableEq

/-- `Host` from the host source file (package ivshmem, Linux): path, region,
size and the mapped flag. -/
structure Host where
  shmPath : GoStr
  sharedMem : Nat
  size : Nat
  mapped : Bool
deriving DecidableEq

/-- `Host.Map` (pointer receiver): open, stat, mmap, then set the fields.
The body performs no check of `h.mapped`. -/
def Host.Map (os : LinuxOS) (h : Host) : Except EndpointErr Unit × Host :=
  match os.openRes with
  | .error _ => (.error .openFail, h)
  | .ok _ =>
    match os.statRes with
    | .error _ => (.error .statFail, h)
    | .ok fileSize =>
      match os.mmapRes with
      | .error _ => (.error .mmapFail, h)
      | .ok region =>
        (.ok (), { h with mapped := true, sharedMem := region, size := fileSize })

/-- Body of `Host.Unmap` (value receiver): munmap, nothing else; no check of
`h.mapped` and no write to it. -/
def Host.UnmapBody (os : LinuxOS) (_h : Host) : Except EndpointErr Unit :=
  match os.munmapRes with
  | .error _ => .error .munmapFail
  | .ok _ => .ok ()

/-- Caller-visible `Host.Unmap`: the value receiver leaves the caller's
state untouched. -/
def Host.Unmap (os : LinuxOS) (h : Host) : Except EndpointErr Unit × Host :=
  (Host.UnmapBody os h, h)

/-- Result of a region accessor: a Go panic or a returned region view. -/
inductive MemAccess
  | fatal
  | value (region : Nat)
deriving DecidableEq, Repr

/-- `Host.Size` (value receiver): returns the `size` field unconditionally. -/
def Host.Size (h : Host) : Nat := h.size

/-- `Host.DevPath` (value receiver): returns the path unconditionally. -/
def Host.DevPath (h : Host) : GoStr := h.shmPath

/-- `Host.SharedMem` (value receiver): panics when not mapped, otherwise
returns the region. -/
def Host.SharedMem (h : Host) : MemAccess :=
  if !h.mapped then .fatal else .value h.sharedMem

/-- `Guest` from guest/guest_linux.go. -/
structure GuestL where
  loc : PCILocation
  devPath : GoStr
  mapped : Bool
  sharedMem : Nat
  size : Nat
deriving DecidableEq

/-- `Guest.Map` from guest/guest_linux.go (pointer receiver): refuse when
already mapped, then stat, open, mmap and set the fields. -/
def GuestL.Map (os : LinuxOS) (g : GuestL) : Except EndpointErr Unit × GuestL :=
  if g.mapped then (.error .alreadyMapped, g)
  else
    match os.statRes with
    | .error _ => (.error .statFail, g)
    | .ok fileSize =>
      match os.openRes with
      | .error _ => (.error .openFail, g)
      | .ok _ =>
        match os.mmapRes with
        | .error _ => (.error .mmapFail, g)
        | .ok region =>
          (.ok (), { g with sharedMem := region, size := fileSize, mapped := true })

/-- Body of `Guest.Unmap` from guest/guest_linux.go (value receiver): refuse
when not mapped, munmap, then clear `mapped` — on the copy. -/
def GuestL.UnmapBody (os : LinuxOS) (g : GuestL) : Except EndpointErr Unit × GuestL :=
  if !g.mapped then (.error .alreadyUnmapped, g)
  else
    match os.munmapRes with
    | .error _ => (.error .munmapFail, g)
    | .ok _ => (.ok (), { g with mapped := false })

/-- Caller-visible `Guest.Unmap` (Linux): the value receiver means the
body's write to `mapped` is lost and the caller's state is unchanged. -/
def GuestL.Unmap (os : LinuxOS) (g : GuestL) : Except EndpointErr Unit × GuestL :=
  ((GuestL.UnmapBody os g).1, g)

/-- `Guest.SharedMem` from guest/guest_linux.go: panics when not mapped. -/
def GuestL.SharedMem (g : GuestL) : MemAccess :=
  if !g.mapped then .fatal else .value g.sharedMem

/-- `Guest.Size` from guest/guest_linux.go: unconditional field read. -/
def GuestL.Size (g : GuestL) : Nat := g.size

/-- Oracle for the Windows device calls: the two `DeviceIoControl` requests
of `Map` (size query yielding `ivshmemSize`, mmap request yielding the
region pointer), the release request, and `CloseHandle`. -/
structure WinOS where
  sizeIoctl : Except Unit Nat
  mmapIoctl : Except Unit Nat
  releaseIoctl : Except Unit Unit
  closeRes : Except Unit Unit
deriving DecidableEq

/-- `Guest` from guest_windows.go (package ivshmem). -/
structure GuestW where
  devPath : GoStr
  mapped : Bool
  sharedMem : Nat
  size : Nat
deriving DecidableEq

/-- `Guest.Map` from guest_windows.go (pointer receiver): refuse when
already mapped, then the size ioctl, the mmap ioctl, and set the fields. -/
def GuestW.Map (os : WinOS) (g : GuestW) : Except EndpointErr Unit × GuestW :=
  if g.mapped then (.error .alreadyMapped, g)
  else
    match os.sizeIoctl with
    | .error _ => (.error .sizeIoctlFail, g)
    | .ok ivshmemSize =>
      match os.mmapIoctl with
      | .error _ => (.error .mmapIoctlFail, g)
      | .ok region =>
        (.ok (), { g with sharedMem := region, size := ivshmemSize, mapped := true })

/-- Body of `Guest.Unmap` from guest_windows.go (value receiver): refuse
when not mapped, release ioctl, close the handle, clear `mapped` — on the
copy. -/
def GuestW.UnmapBody (os : WinOS) (g : GuestW) : Except EndpointErr Unit × GuestW :=
  if !g.mapped then (.error .alreadyUnmapped, g)
  else
    match os.releaseIoctl with
    | .error _ => (.error .releaseIoctlFail, g)
    | .ok _ =>
      match os.closeRes with
      | .error _ => (.error .closeFail, g)
      | .ok _ => (.ok (), { g with mapped := false })

/-- Caller-visible `Guest.Unmap` (package ivshmem, Windows): value receiver,
caller's state unchanged. -/
def GuestW.Unmap (os : WinOS) (g : GuestW) : Except EndpointErr Unit × GuestW :=
  ((GuestW.UnmapBody os g).1, g)

/-- `Guest.SharedMem` from guest_windows.go: panics when not mapped. -/
def GuestW.SharedMem (g : GuestW) : MemAccess :=
  if !g.mapped then .fatal else .value g.sharedMem

/-- `Guest` from the guest-package Windows variant (guest/common.go file of
that build): it has no `mapped` field at all. -/
structure GuestCW where
  devPath : GoStr
  sharedMem : Nat
  size : Nat
deriving DecidableEq

/-- `Guest.Map` of the guest-package Windows variant (pointer receiver): no
mapped check — the two ioctls run and the fields are overwritten. -/
def GuestCW.Map (os : WinOS) (g : GuestCW) : Except EndpointErr Unit × GuestCW :=
  match os.sizeIoctl with
  | .error _ => (.error .sizeIoctlFail, g)
  | .ok ivshmemSize =>
    match os.mmapIoctl with
    | .error _ => (.error .mmapIoctlFail, g)
    | .ok region =>
      (.ok (), { g with sharedMem := region, size := ivshmemSize })

/-- Body of `Guest.Unmap` of the guest-package Windows variant: release and
close, with no state check. -/
def GuestCW.UnmapBody (os : WinOS) (_g : GuestCW) : Except EndpointErr Unit :=
  match os.releaseIoctl with
  | .error _ => .error .releaseIoctlFail
  | .ok _ =>
    match os.closeRes with
    | .error _ => .error .closeFail
    | .ok _ => .ok ()

/-- `Guest.SharedMem` of the guest-package Windows variant: returns the
region field unconditionally — no mapped state exists to check and no panic
is possible. -/
def GuestCW.SharedMem (g : GuestCW) : MemAccess :=
  .value g.sharedMem

/-! ### Handle establishment (guest_windows.go / guest-package Windows) -/

/-- Windows `ERROR_INSUFFICIENT_BUFFER`. -/
def ERROR_INSUFFICIENT_BUFFER : Nat := 122

/-- The errno `setupDiCall` substitutes when the call failed but reported no
error code (Go `syscall.EINVAL`). -/
def EINVAL : Nat := 22

/-- `setupDiCall` from guest_windows.go: run the procedure; a zero `r1`
means failure, reported as the raw errno, or `EINVAL` when that is zero;
nonzero `r1` reports errno 0. -/
def setupDiCall (r1 errno : Nat) : Nat :=
  if r1 = 0 then (if errno ≠ 0 then errno else EINVAL) else 0

/-- Oracle for one `establishHandle` run: the `(r1, errno)` outcomes of its
three `SetupDi*` invocations, the `CreateFile` outcome (a handle value),
and the device path decoded from the detail buffer. -/
structure EstOracle where
  enumCall : Nat × Nat
  probeCall : Nat × Nat
  detailCall : Nat × Nat
  createFileRes : Except Unit Nat
  devicePath : GoStr
deriving DecidableEq

/-- `windows.InvalidHandle = ^Handle(0)` on a 64-bit build. -/
def INVALID_HANDLE : Nat := 2 ^ 64 - 1

/-- Failure cases of `establishHandle`, in source order. -/
inductive EstErr
  | enumInterfaces (errno : Nat)
  | getsizeFailed (errno : Nat)
  | detailFailed (errno : Nat)
  | createFileFailed
  | invalidHandle
deriving DecidableEq, Repr

/-- `establishHandle` from guest_windows.go: enumerate the device interface;
probe the detail size with a null buffer, where errno 0 or
`ERROR_INSUFFICIENT_BUFFER` both count as success; allocate the buffer and
re-query (the buffer writes have no branches and stay implicit); then open
the decoded path and reject an invalid handle. -/
def establishHandle (os : EstOracle) : Except EstErr (Nat × GoStr) :=
  let e1 := setupDiCall os.enumCall.1 os.enumCall.2
  if e1 ≠ 0 then .error (.enumInterfaces e1)
  else
    let e2 := setupDiCall os.probeCall.1 os.probeCall.2
    if e2 ≠ 0 ∧ e2 ≠ ERROR_INSUFFICIENT_BUFFER then .error (.getsizeFailed e2)
    else
      let e3 := setupDiCall os.detailCall.1 os.detailCall.2
      if e3 ≠ 0 then .error (.detailFailed e3)
      else
        match os.createFileRes with
        | .error _ => .error .createFileFailed
        | .ok handle =>
          if handle = INVALID_HANDLE then .error .invalidHandle
          else .ok (handle, os.devicePath)

/-! ### Guest constructors and their selection loops -/

/-- Failure cases of the Linux `New` (guest/guest_linux.go). -/
inductive NewErr
  | rawList (e : RawListErr)
  | convert (e : LocErr)
  | cannotFindDevice
deriving DecidableEq, Repr

/-- The selection loop of the Linux `New`: convert every raw name (any
parse failure aborts, unlike in `ListDevices`), and on each match overwrite
`found`/`idx` — so the loop runs to the end and keeps the last match. -/
def findLoop (location : PCILocation) :
    List GoStr → Nat → Bool → Int → Except LocErr (Bool × Int)
  | [], _, found, idx => .ok (found, idx)
  | dev :: devs, i, found, idx =>
    match convertLocation dev with
    | .error e => .error e
    | .ok loc =>
      if loc = location then findLoop location devs (i + 1) true (Int.ofNat i)
      else findLoop location devs (i + 1) found idx

/-- Go constant `PCI_PATH`. -/
def PCI_PATH : GoStr := "/sys/bus/pci/devices".data

/-- The `fmt.Sprintf("%s/%s/%s", PCI_PATH, devices[idx], "resource2")` path. -/
def resourcePath (dev : GoStr) : GoStr :=
  PCI_PATH ++ "/".data ++ dev ++ "/resource2".data

/-- `New` from guest/guest_linux.go: raw listing, the overwrite-on-match
selection loop started as `found = false, idx = -1`, then the guest built
on `devices[idx]`'s resource file (remaining fields are Go zero values). -/
def NewL (dirRes : Except Unit (List DirEntry)) (location : PCILocation) :
    Except NewErr GuestL :=
  match listIvshmemPCIRaw dirRes with
  | .error e => .error (.rawList e)
  | .ok devices =>
    match findLoop location devices 0 false (-1) with
    | .error e => .error (.convert e)
    | .ok (false, _) => .error .cannotFindDevice
    | .ok (true, idx) =>
      .ok ⟨location, resourcePath (devices.getD idx.toNat []), false, 0, 0⟩

/-- The selection loop shared by the two Windows constructors
(`NewGuest` in guest_windows.go and `New` in the guest-package variant):
compare each enumerated location and overwrite `found`/`idx` on a match. -/
def selectLastLoc (location : PCILocation) :
    List PCILocation → Nat → Bool → Int → Bool × Int
  | [], _, found, idx => (found, idx)
  | l :: ls, i, found, idx =>
    if l = location then selectLastLoc location ls (i + 1) true (Int.ofNat i)
    else selectLastLoc location ls (i + 1) found idx

/-- Failure cases of `NewGuest` from guest_windows.go. -/
inductive NewWErr
  | list (e : WinListErr)
  | cannotFindDevice
  | establish (e : EstErr)
deriving DecidableEq, Repr

/-- `NewGuest` from guest_windows.go: enumerate, select by the overwriting
loop, then establish the handle on the chosen entry; the fresh guest holds
the returned path and zero values. -/
def NewGuestW (devs : List WinRawDev) (est : EstOracle) (location : PCILocation) :
    Except NewWErr GuestW :=
  match getIvshmemDevices devs with
  | .error e => .error (.list e)
  | .ok datas =>
    match selectLastLoc location (datas.map (·.loc)) 0 false (-1) with
    | (false, _) => .error .cannotFindDevice
    | (true, _) =>
      match establishHandle est with
      | .error e => .error (.establish e)
      | .ok (_, path) => .ok ⟨path, false, 0, 0⟩

example : convertLocation "0000:08:01.0".data = .ok ⟨8, 1, 0⟩ := by decide
example : convertLocation "bad:input".data = .error .invalidLocation := by decide
example : convertLocation "0000:1ff:01.0".data = .error .parseBus := by decide
example : convertLocationWin "PCI bus 4, device 1, function 0".data = .ok ⟨4, 1, 0⟩ := by decide
example : convertLocationWin "PCI bus 4, device 1, function".data = .error .badTokenCount := by decide
example : pciString ⟨4, 1, 0⟩ = "PCI bus 4, device 1, function 0".data := by decide

/-! ### Lemmas about the sorting model -/

theorem mem_insSorted {c : α → α → Bool} {x z : α} {l : List α} :
    z ∈ insSorted c x l ↔ z = x ∨ z ∈ l := by
  induction l with
  | nil => simp [insSorted]
  | cons y ys ih =>
    rw [insSorted]
    split
    · simp [List.mem_cons]
    · simp only [List.mem_cons, ih]
      tauto

theorem pairwise_insSorted {c : α → α → Bool} {r : α → α → Prop}
    (hTrans : ∀ a b d, r a b → r b d → r a d)
    (hT : ∀ a b, c a b = true → r a b)
    (hF : ∀ a b, c a b = false → r b a)
    {x : α} {l : List α} (hl : l.Pairwise r) :
    (insSorted c x l).Pairwise r := by
  induction l with
  | nil => simp [insSorted]
  | cons y ys ih =>
    rw [List.pairwise_cons] at hl
    obtain ⟨hy, hys⟩ := hl
    by_cases hc : c x y
    · rw [insSorted, if_pos hc]
      refine List.Pairwise.cons ?_ (List.Pairwise.cons hy hys)
      intro z hz
      rcases List.mem_cons.mp hz with rfl | hz
      · exact hT _ _ hc
      · exact hTrans _ _ _ (hT _ _ hc) (hy z hz)
    · rw [insSorted, if_neg hc]
      refine List.Pairwise.cons ?_ (ih hys)
      intro z hz
      rcases mem_insSorted.mp hz with rfl | hz
      · exact hF _ _ (by simpa using hc)
      · exact hy z hz

theorem pairwise_sortBy {c : α → α → Bool} {r : α → α → Prop}
    (hTrans : ∀ a b d, r a b → r b d → r a d)
    (hT : ∀ a b, c a b = true → r a b)
    (hF : ∀ a b, c a b = false → r b a) :
    ∀ l : List α, (sortBy c l).Pairwise r := by
  intro l
  induction l with
  | nil => exact List.Pairwise.nil
  | cons x xs ih => exact pairwise_insSorted hTrans hT hF ih

theorem locLe_trans (a b d : PCILocation) (h1 : locLe a b) (h2 : locLe b d) :
    locLe a d := by
  unfold locLe at *
  omega

theorem locLess_true {a b : PCILocation} (h : locLess a b = true) : locLe a b := by
  unfold locLess at h
  unfold locLe
  split_ifs at h <;> omega

theorem locLess_false {a b : PCILocation} (h : locLess a b = false) : locLe b a := by
  unfold locLess at h
  unfold locLe
  split_ifs at h <;> simp_all <;> omega

/-! ### Claim theorems -/

/-- C1, counterexample. A `Host` that is already mapped (`mapped = true`,
region 1, size 10) has its `Map` succeed again when the OS calls succeed,
overwriting the size with the newly statted 42 — it does not fail with
`AlreadyMapped` leaving the state unchanged, as the claim states for every
endpoint. -/
theorem claim1_counterexample :
    (Host.Map ⟨.ok 42, .ok (), .ok 7, .ok ()⟩ ⟨"p".data, 1, 10, true⟩).1 = .ok () ∧
    (Host.Map ⟨.ok 42, .ok (), .ok 7, .ok ()⟩ ⟨"p".data, 1, 10, true⟩).2.size = 42 ∧
    (Host.Map ⟨.ok 42, .ok (), .ok 7, .ok ()⟩ ⟨"p".data, 1, 10, true⟩).2.sharedMem = 7 ∧
    (⟨"p".data, 1, 10, true⟩ : Host).mapped = true ∧
    (⟨"p".data, 1, 10, true⟩ : Host).size = 10 := by
  decide

/-- C1, amended. The two guests that carry a `mapped` flag (Linux `Guest`
and the package-ivshmem Windows `Guest`) fail a second `Map` with
`AlreadyMapped`, leaving the state unchanged; `Host.Map` and the
guest-package Windows `Map` perform no mapped check — whenever the OS calls
succeed they map again and overwrite region and size, whatever the prior
state. -/
theorem claim1_amended :
    (∀ (os : LinuxOS) (g : GuestL), g.mapped = true →
        GuestL.Map os g = (.error .alreadyMapped, g)) ∧
    (∀ (os : WinOS) (g : GuestW), g.mapped = true →
        GuestW.Map os g = (.error .alreadyMapped, g)) ∧
    (∀ (os : LinuxOS) (h : Host) (sz rid : Nat),
        os.openRes = .ok () → os.statRes = .ok sz → os.mmapRes = .ok rid →
        Host.Map os h = (.ok (), { h with mapped := true, sharedMem := rid, size := sz })) ∧
    (∀ (os : WinOS) (g : GuestCW) (sz rid : Nat),
        os.sizeIoctl = .ok sz → os.mmapIoctl = .ok rid →
        GuestCW.Map os g = (.ok (), { g with sharedMem := rid, size := sz })) := by
  refine ⟨?_, ?_, ?_, ?_⟩
  · intro os g hm
    unfold GuestL.Map
    rw [if_pos hm]
  · intro os g hm
    unfold GuestW.Map
    rw [if_pos hm]
  · intro os h sz rid ho hs hmm
    unfold Host.Map
    rw [ho, hs, hmm]
  · intro os g sz rid hs hmm
    unfold GuestCW.Map
    rw [hs, hmm]

/-- C1, witness for the amended theorem at concrete states and oracles. -/
theorem claim1_amended_witness :
    GuestL.Map ⟨.ok 1, .ok (), .ok 2, .ok ()⟩ ⟨⟨0, 0, 0⟩, [], true, 3, 4⟩ =
      (.error .alreadyMapped, ⟨⟨0, 0, 0⟩, [], true, 3, 4⟩) ∧
    GuestW.Map ⟨.ok 1, .ok 2, .ok (), .ok ()⟩ ⟨[], true, 3, 4⟩ =
      (.error .alreadyMapped, ⟨[], true, 3, 4⟩) ∧
    Host.Map ⟨.ok 42, .ok (), .ok 7, .ok ()⟩ ⟨[], 1, 10, true⟩ =
      (.ok (), ⟨[], 7, 42, true⟩) ∧
    GuestCW.Map ⟨.ok 42, .ok 7, .ok (), .ok ()⟩ ⟨[], 1, 10⟩ =
      (.ok (), ⟨[], 7, 42⟩) :=
  ⟨claim1_amended.1 _ _ rfl, claim1_amended.2.1 _ _ rfl,
   claim1_amended.2.2.1 _ _ 42 7 rfl rfl rfl, claim1_amended.2.2.2 _ _ 42 7 rfl rfl⟩

/-- C2, evaluation at the failing input. Linux guest, all OS calls
succeeding: a fresh guest maps, the first `Unmap` succeeds — but its body's
`g.mapped = false` lands on the value-receiver copy, so the caller's state
still shows `mapped = true` and a second `Unmap` passes the state check,
munmaps again and returns success instead of `AlreadyUnmapped`. `Host.Unmap`
has no state check at all and equally re-munmaps. -/
theorem claim2_bug_eval :
    (GuestL.Map ⟨.ok 42, .ok (), .ok 7, .ok ()⟩ ⟨⟨0, 0, 0⟩, "p".data, false, 0, 0⟩).1 = .ok () ∧
    (let g1 := (GuestL.Map ⟨.ok 42, .ok (), .ok 7, .ok ()⟩ ⟨⟨0, 0, 0⟩, "p".data, false, 0, 0⟩).2
     (GuestL.Unmap ⟨.ok 42, .ok (), .ok 7, .ok ()⟩ g1).1 = .ok () ∧
     (GuestL.UnmapBody ⟨.ok 42, .ok (), .ok 7, .ok ()⟩ g1).2.mapped = false ∧
     (GuestL.Unmap ⟨.ok 42, .ok (), .ok 7, .ok ()⟩ g1).2.mapped = true ∧
     (GuestL.Unmap ⟨.ok 42, .ok (), .ok 7, .ok ()⟩
        (GuestL.Unmap ⟨.ok 42, .ok (), .ok 7, .ok ()⟩ g1).2).1 = .ok ()) ∧
    (Host.Unmap ⟨.ok 1, .ok (), .ok 2, .ok ()⟩ ⟨"p".data, 5, 9, false⟩).1 = .ok () := by
  decide

/-- C3, counterexample. The guest-package Windows variant's `SharedMem`
returns its region field even on a completely fresh (never mapped) guest —
no panic, no error, a silently returned region view. -/
theorem claim3_counterexample :
    GuestCW.SharedMem ⟨[], 0, 0⟩ = .value 0 ∧
    GuestCW.SharedMem ⟨[], 0, 0⟩ ≠ .fatal := by
  decide

/-- C3, amended. `Host.SharedMem`, the Linux `Guest.SharedMem` and the
package-ivshmem Windows `Guest.SharedMem` panic exactly when the endpoint
is not mapped; the guest-package Windows variant has no mapped state and
returns its region field unconditionally. -/
theorem claim3_amended :
    (∀ h : Host, h.mapped = false → Host.SharedMem h = .fatal) ∧
    (∀ g : GuestL, g.mapped = false → GuestL.SharedMem g = .fatal) ∧
    (∀ g : GuestW, g.mapped = false → GuestW.SharedMem g = .fatal) ∧
    (∀ g : GuestCW, GuestCW.SharedMem g = .value g.sharedMem) := by
  refine ⟨?_, ?_, ?_, fun g => rfl⟩
  · intro h hm
    unfold Host.SharedMem
    rw [hm]
    rfl
  · intro g hm
    unfold GuestL.SharedMem
    rw [hm]
    rfl
  · intro g hm
    unfold GuestW.SharedMem
    rw [hm]
    rfl

/-- C3, witness for the amended theorem at fresh unmapped endpoints. -/
theorem claim3_amended_witness :
    Host.SharedMem ⟨[], 0, 0, false⟩ = .fatal ∧
    GuestL.SharedMem ⟨⟨0, 0, 0⟩, [], false, 0, 0⟩ = .fatal ∧
    GuestW.SharedMem ⟨[], false, 0, 0⟩ = .fatal ∧
    GuestCW.SharedMem ⟨[], 9, 0⟩ = .value 9 :=
  ⟨claim3_amended.1 _ rfl, claim3_amended.2.1 _ rfl, claim3_amended.2.2.1 _ rfl,
   claim3_amended.2.2.2 _⟩

/-- C5, counterexample. On a `Host` with `mapped = false`, `Size` returns
the stored size 5 and `DevPath` the stored path — ordinary values, with no
gating on the mapped state; only `SharedMem` is gated. -/
theorem claim5_counterexample :
    Host.Size ⟨"p".data, 0, 5, false⟩ = 5 ∧
    Host.DevPath ⟨"p".data, 0, 5, false⟩ = "p".data ∧
    (⟨"p".data, 0, 5, false⟩ : Host).mapped = false := by
  decide

/-- C5, amended. Of the three `Host` accessors only `SharedMem` is gated by
the mapped state (it panics exactly when `mapped` is false); `Size` and
`DevPath` are insensitive to the mapped flag and return the stored fields. -/
theorem claim5_amended :
    ∀ (h : Host) (b : Bool),
      Host.Size { h with mapped := b } = Host.Size h ∧
      Host.DevPath { h with mapped := b } = Host.DevPath h ∧
      (Host.SharedMem h = .fatal ↔ h.mapped = false) := by
  intro h b
  refine ⟨rfl, rfl, ?_⟩
  unfold Host.SharedMem
  cases hm : h.mapped <;> simp

/-- C9. With the interface enumeration successful, `establishHandle` treats
the null-buffer probe as successful preparation exactly when its
`setupDiCall` code is 0 or `ERROR_INSUFFICIENT_BUFFER`: in those two cases
it continues exactly as if the probe had plainly succeeded, and for any
other nonzero code it fails with that code. -/
theorem claim9_probe :
    ∀ os : EstOracle, setupDiCall os.enumCall.1 os.enumCall.2 = 0 →
      ((setupDiCall os.probeCall.1 os.probeCall.2 = 0 ∨
        setupDiCall os.probeCall.1 os.probeCall.2 = ERROR_INSUFFICIENT_BUFFER) →
        establishHandle os = establishHandle { os with probeCall := (1, 0) }) ∧
      (setupDiCall os.probeCall.1 os.probeCall.2 ≠ 0 →
        setupDiCall os.probeCall.1 os.probeCall.2 ≠ ERROR_INSUFFICIENT_BUFFER →
        establishHandle os =
          .error (.getsizeFailed (setupDiCall os.probeCall.1 os.probeCall.2))) := by
  intro os h1
  constructor
  · intro h2
    have hr : setupDiCall 1 0 = 0 := rfl
    unfold establishHandle
    rcases h2 with h2 | h2 <;> simp [h1, h2, hr]
  · intro h2 h3
    unfold establishHandle
    simp [h1, h2, h3]

/-- C9, witness: a probe reporting `ERROR_INSUFFICIENT_BUFFER` continues
like a clean success; a probe reporting errno 5 fails with code 5. -/
theorem claim9_probe_witness :
    (establishHandle ⟨(1, 0), (0, 122), (1, 0), .ok 5, []⟩ =
      establishHandle ⟨(1, 0), (1, 0), (1, 0), .ok 5, []⟩) ∧
    (establishHandle ⟨(1, 0), (0, 5), (1, 0), .ok 5, []⟩ =
      .error (.getsizeFailed 5)) :=
  ⟨(claim9_probe ⟨(1, 0), (0, 122), (1, 0), .ok 5, []⟩ rfl).1 (Or.inr rfl),
   (claim9_probe ⟨(1, 0), (0, 5), (1, 0), .ok 5, []⟩ rfl).2 (by decide) (by decide)⟩

theorem convertLoop_eq_filterMap (ns : List GoStr) :
    convertLoop ns = ns.filterMap fun n => (convertLocation n).toOption := by
  induction ns with
  | nil => rfl
  | cons n ns ih =>
    cases h : convertLocation n with
    | error e => simp [convertLoop, h, ih, Except.toOption]
    | ok loc => simp [convertLoop, h, ih, Except.toOption]

theorem ivshmemFilter_vendor_error {l : List DirEntry} {e : DirEntry}
    (he : e ∈ l) (hv : e.vendorFile = .error ()) :
    ∃ err, ivshmemFilter l = .error err := by
  induction l with
  | nil => cases he
  | cons hd tl ih =>
    cases hvd : hd.vendorFile with
    | error u => exact ⟨.vendorRead, by simp [ivshmemFilter, hvd]⟩
    | ok vdata =>
      have he' : e ∈ tl := by
        rcases List.mem_cons.mp he with rfl | h
        · simp [hv] at hvd
        · exact h
      obtain ⟨err, herr⟩ := ih he'
      by_cases hm : trimSpace vdata ≠ IVSHMEM_VENDOR
      · exact ⟨err, by simp [ivshmemFilter, hvd, hm, herr]⟩
      · cases hdd : hd.deviceFile with
        | error u => exact ⟨.deviceRead, by simp [ivshmemFilter, hvd, hm, hdd]⟩
        | ok ddata =>
          by_cases hm2 : trimSpace ddata ≠ IVSHMEM_DEVICE
          · exact ⟨err, by simp [ivshmemFilter, hvd, hm, hdd, hm2, herr]⟩
          · exact ⟨err, by simp [ivshmemFilter, hvd, hm, hdd, hm2, herr, Except.map]⟩

/-- C4, counterexample. One candidate directory entry with a PCI-shaped
name whose `vendor` file is unreadable: the whole `ListDevices` call fails
with the read error instead of skipping the entry and returning the empty
remainder. -/
theorem claim4_counterexample :
    ListDevices (.ok [⟨"0000:08:01.0".data, .error (), .ok IVSHMEM_DEVICE⟩]) =
      .error .vendorRead := by
  decide

/-- C4, amended. An unreadable `vendor` (or `device`) id file on any
PCI-shaped candidate aborts the whole listing with an error; it is only a
location-parse failure that merely drops its entry — whenever the raw
listing succeeds, `ListDevices` succeeds and returns exactly the parseable
entries, sorted. -/
theorem claim4_amended :
    (∀ (entries : List DirEntry) (e : DirEntry),
        e ∈ entries → isPCIName e.name = true → e.vendorFile = .error () →
        ∃ err, ListDevices (.ok entries) = .error err) ∧
    (∀ (dirRes : Except Unit (List DirEntry)) (names : List GoStr),
        listIvshmemPCIRaw dirRes = .ok names →
        ListDevices dirRes =
          .ok (sortBy locLess (names.filterMap fun n => (convertLocation n).toOption))) := by
  constructor
  · intro entries e he hpci hv
    have hef : e ∈ entries.filter (fun x => isPCIName x.name) :=
      List.mem_filter.mpr ⟨he, hpci⟩
    obtain ⟨err, herr⟩ := ivshmemFilter_vendor_error hef hv
    exact ⟨err, by simp [ListDevices, listIvshmemPCIRaw, herr]⟩
  · intro dirRes names hraw
    simp [ListDevices, hraw, convertLoop_eq_filterMap]

/-- C4, witness for the amended theorem: a one-entry directory with an
unreadable vendor file makes the call fail, and an empty directory lists
successfully. -/
theorem claim4_amended_witness :
    (∃ err, ListDevices (.ok [⟨"0000:08:01.0".data, .error (), .ok IVSHMEM_DEVICE⟩]) =
      .error err) ∧
    ListDevices (.ok []) = .ok (sortBy locLess
      (([] : List GoStr).filterMap fun n => (convertLocation n).toOption)) :=
  ⟨claim4_amended.1 _ ⟨"0000:08:01.0".data, .error (), .ok IVSHMEM_DEVICE⟩
      (by decide) (by decide) rfl,
   claim4_amended.2 (.ok []) [] rfl⟩

/-- C8. Every successful listing is ascending by its sort key: the Linux
`ListDevices` output is pairwise ordered by the (bus, device, function)
lexicographic order, the Windows `getIvshmemDevices` output is pairwise
ordered by the numeric bus address, and concretely raw Windows candidates
carrying keys [30, 10, 20] come back as [10, 20, 30]. -/
theorem claim8_sorted :
    (∀ (dirRes : Except Unit (List DirEntry)) (locs : List PCILocation),
        ListDevices dirRes = .ok locs → locs.Pairwise locLe) ∧
    (∀ (devs : List WinRawDev) (datas : List WinDeviceData),
        getIvshmemDevices devs = .ok datas →
          (datas.map (·.busAddr)).Pairwise (· ≤ ·)) ∧
    getIvshmemDevices
        [⟨.ok 0, .ok 30, .ok "PCI bus 3, device 0, function 0".data⟩,
         ⟨.ok 0, .ok 10, .ok "PCI bus 1, device 0, function 0".data⟩,
         ⟨.ok 0, .ok 20, .ok "PCI bus 2, device 0, function 0".data⟩] =
      .ok [⟨⟨1, 0, 0⟩, 10⟩, ⟨⟨2, 0, 0⟩, 20⟩, ⟨⟨3, 0, 0⟩, 30⟩] := by
  refine ⟨?_, ?_, by decide⟩
  · intro dirRes locs h
    rw [ListDevices] at h
    cases hraw : listIvshmemPCIRaw dirRes with
    | error e => rw [hraw] at h; cases h
    | ok names =>
      rw [hraw] at h
      injection h with h
      subst h
      exact pairwise_sortBy locLe_trans (fun a b => locLess_true)
        (fun a b => locLess_false) _
  · intro devs datas h
    rw [getIvshmemDevices] at h
    cases hloop : winEnumLoop devs with
    | error e => rw [hloop] at h; cases h
    | ok raw =>
      rw [hloop] at h
      injection h with h
      subst h
      rw [List.pairwise_map]
      refine pairwise_sortBy (r := fun a b : WinDeviceData => a.busAddr ≤ b.busAddr)
        (fun a b d h1 h2 => le_trans h1 h2) (fun a b hc => ?_) (fun a b hc => ?_) _
      · exact Nat.le_of_lt (by simpa using hc)
      · simp at hc
        omega

/-- C8, witness: the two sortedness parts applied at concrete inputs. -/
theorem claim8_sorted_witness :
    ([⟨1, 0, 0⟩, ⟨2, 0, 0⟩] : List PCILocation).Pairwise locLe ∧
    (([⟨⟨1, 0, 0⟩, 10⟩, ⟨⟨2, 0, 0⟩, 20⟩, ⟨⟨3, 0, 0⟩, 30⟩] : List WinDeviceData).map
      (·.busAddr)).Pairwise (· ≤ ·) :=
  ⟨claim8_sorted.1
      (.ok [⟨"0000:02:00.0".data, .ok IVSHMEM_VENDOR, .ok IVSHMEM_DEVICE⟩,
            ⟨"0000:01:00.0".data, .ok IVSHMEM_VENDOR, .ok IVSHMEM_DEVICE⟩])
      [⟨1, 0, 0⟩, ⟨2, 0, 0⟩] (by decide),
   claim8_sorted.2.1
      [⟨.ok 0, .ok 30, .ok "PCI bus 3, device 0, function 0".data⟩,
       ⟨.ok 0, .ok 10, .ok "PCI bus 1, device 0, function 0".data⟩,
       ⟨.ok 0, .ok 20, .ok "PCI bus 2, device 0, function 0".data⟩]
      [⟨⟨1, 0, 0⟩, 10⟩, ⟨⟨2, 0, 0⟩, 20⟩, ⟨⟨3, 0, 0⟩, 30⟩] (by decide)⟩

theorem selectLastLoc_no_match {loc : PCILocation} {ls : List PCILocation}
    (h : loc ∉ ls) : ∀ i found idx, selectLastLoc loc ls i found idx = (found, idx) := by
  induction ls with
  | nil => intro i found idx; rfl
  | cons x xs ih =>
    intro i found idx
    rw [selectLastLoc]
    have hx : ¬x = loc := fun he => h (he ▸ List.mem_cons_self x xs)
    rw [if_neg hx]
    exact ih (fun hm => h (List.mem_cons_of_mem _ hm)) _ _ _

theorem selectLastLoc_last {loc : PCILocation} {l2 : List PCILocation} (h2 : loc ∉ l2) :
    ∀ (l1 : List PCILocation) (i : Nat) (found : Bool) (idx : Int),
      selectLastLoc loc (l1 ++ loc :: l2) i found idx = (true, Int.ofNat (i + l1.length)) := by
  intro l1
  induction l1 with
  | nil =>
    intro i found idx
    rw [List.nil_append, selectLastLoc, if_pos rfl, selectLastLoc_no_match h2]
    simp
  | cons x xs ih =>
    intro i found idx
    rw [List.cons_append, selectLastLoc]
    have harith : (i + 1) + xs.length = i + (x :: xs).length := by
      simp [List.length_cons]
      omega
    by_cases hx : x = loc
    · rw [if_pos hx, ih, harith]
    · rw [if_neg hx, ih, harith]

theorem findLoop_no_match {location : PCILocation} {ls : List GoStr}
    (h : ∀ m ∈ ls, ∃ p, convertLocation m = .ok p ∧ p ≠ location) :
    ∀ i found idx, findLoop location ls i found idx = .ok (found, idx) := by
  induction ls with
  | nil => intro i found idx; rfl
  | cons x xs ih =>
    intro i found idx
    obtain ⟨p, hp, hne⟩ := h x (List.mem_cons_self x xs)
    rw [findLoop, hp]
    simp only [if_neg hne]
    exact ih (fun m hm => h m (List.mem_cons_of_mem _ hm)) _ _ _

theorem findLoop_last {location : PCILocation} {l2 : List GoStr} {n : GoStr}
    (hn : convertLocation n = .ok location)
    (h2 : ∀ m ∈ l2, ∃ p, convertLocation m = .ok p ∧ p ≠ location) :
    ∀ (l1 : List GoStr), (∀ m ∈ l1, ∃ p, convertLocation m = .ok p) →
      ∀ i found idx, findLoop location (l1 ++ n :: l2) i found idx =
        .ok (true, Int.ofNat (i + l1.length)) := by
  intro l1
  induction l1 with
  | nil =>
    intro _ i found idx
    rw [List.nil_append, findLoop, hn]
    simp only [if_pos rfl]
    rw [findLoop_no_match h2]
    simp
  | cons x xs ih =>
    intro hok i found idx
    obtain ⟨p, hp⟩ := hok x (List.mem_cons_self x xs)
    have harith : (i + 1) + xs.length = i + (x :: xs).length := by
      simp [List.length_cons]
      omega
    rw [List.cons_append, findLoop, hp]
    by_cases hx : p = location
    · simp only [if_pos hx]
      rw [ih (fun m hm => hok m (List.mem_cons_of_mem _ hm)), harith]
    · simp only [if_neg hx]
      rw [ih (fun m hm => hok m (List.mem_cons_of_mem _ hm)), harith]

/-- C10. The constructor selection loops keep overwriting the chosen index
on every match: the Windows loop over an enumeration `l1 ++ loc :: l2`
whose last match is at index `l1.length` ends there regardless of earlier
matches in `l1`; the Linux `New` loop does the same; and concretely the
Linux `New` over two raw names that both decode to the requested location
builds the guest on the second name's resource path, not the first. -/
theorem claim10_lastMatch :
    (∀ (location : PCILocation) (l1 l2 : List PCILocation), location ∉ l2 →
        selectLastLoc location (l1 ++ location :: l2) 0 false (-1) =
          (true, Int.ofNat l1.length)) ∧
    (∀ (location : PCILocation) (l1 l2 : List GoStr) (n : GoStr),
        convertLocation n = .ok location →
        (∀ m ∈ l1, ∃ p, convertLocation m = .ok p) →
        (∀ m ∈ l2, ∃ p, convertLocation m = .ok p ∧ p ≠ location) →
        findLoop location (l1 ++ n :: l2) 0 false (-1) =
          .ok (true, Int.ofNat l1.length)) ∧
    NewL (.ok [⟨"0000:01:00.0".data, .ok IVSHMEM_VENDOR, .ok IVSHMEM_DEVICE⟩,
               ⟨"0001:01:00.0".data, .ok IVSHMEM_VENDOR, .ok IVSHMEM_DEVICE⟩]) ⟨1, 0, 0⟩ =
      .ok ⟨⟨1, 0, 0⟩, resourcePath "0001:01:00.0".data, false, 0, 0⟩ := by
  refine ⟨?_, ?_, by decide⟩
  · intro location l1 l2 h2
    have := selectLastLoc_last h2 l1 0 false (-1)
    simpa using this
  · intro location l1 l2 n hn hok1 h2
    have := findLoop_last hn h2 l1 hok1 0 false (-1)
    simpa using this

/-- C10, witness: both loop characterisations applied at concrete lists in
which an early match is later overwritten. -/
theorem claim10_lastMatch_witness :
    selectLastLoc ⟨1, 0, 0⟩ ([⟨1, 0, 0⟩] ++ ⟨1, 0, 0⟩ :: [⟨2, 0, 0⟩]) 0 false (-1) =
      (true, Int.ofNat 1) ∧
    findLoop ⟨1, 0, 0⟩ (["0000:01:00.0".data] ++ "0001:01:00.0".data :: ["0000:02:00.0".data])
        0 false (-1) = .ok (true, Int.ofNat 1) :=
  ⟨by
    have := claim10_lastMatch.1 ⟨1, 0, 0⟩ [⟨1, 0, 0⟩] [⟨2, 0, 0⟩] (by decide)
    simpa using this,
   by
    have := claim10_lastMatch.2.1 ⟨1, 0, 0⟩ ["0000:01:00.0".data] ["0000:02:00.0".data]
      "0001:01:00.0".data (by decide)
      (by
        intro m hm
        rcases List.mem_singleton.mp hm with rfl
        exact ⟨⟨1, 0, 0⟩, by decide⟩)
      (by
        intro m hm
        rcases List.mem_singleton.mp hm with rfl
        exact ⟨⟨2, 0, 0⟩, by decide, by decide⟩)
    simpa using this⟩

theorem parseUintHex8_le {s : GoStr} {v : Nat} (h : parseUintHex8 s = some v) :
    v ≤ 255 := by
  unfold parseUintHex8 at h
  split at h
  · cases h
  · cases hw : hexValAux s 0 with
    | none =>
      simp only [hw] at h
      cases h
    | some w =>
      simp only [hw] at h
      split at h
      · rename_i hle
        injection h with h
        omega
      · cases h

theorem parseUintHex8_wide {s : GoStr} {v : Nat} (hs : s ≠ [])
    (h : hexValAux s 0 = some v) (hv : 255 < v) : parseUintHex8 s = none := by
  unfold parseUintHex8
  rw [if_neg (by simpa using hs)]
  simp only [h]
  rw [if_neg (by omega)]

/-- C6, counterexample. The bus field `1ff` is wider than 8 bits: the claim
says the parse yields its low 8 bits (`0x1ff % 256 = 255`), but
`strconv.ParseUint(_, 16, 8)` reports a range error and `convertLocation`
fails on the field. -/
theorem claim6_counterexample :
    convertLocation "0000:1ff:01.0".data = .error .parseBus ∧
    hexValAux "1ff".data 0 = some 511 ∧ 511 % 256 = 255 := by
  decide

/-- C6, amended. The sysfs parser succeeds exactly when the `:` split has 3
parts, the `.` split of the last part has 2, and the three numeric fields
parse as hexadecimal within 8 bits; on success the fields are the parsed
values. A field wider than 8 bits is a parse failure (`ParseUint` range
error), not a truncation: every parsed value is at most 255 and an input
whose hex value exceeds 255 makes the field parser fail. -/
theorem claim6_amended :
    (∀ s : GoStr,
      (∃ p, convertLocation s = .ok p) ↔
        ((splitOn ':' s).length = 3 ∧
         (parseUintHex8 ((splitOn ':' s).getD 1 [])).isSome = true ∧
         (splitOn '.' ((splitOn ':' s).getD 2 [])).length = 2 ∧
         (parseUintHex8 ((splitOn '.' ((splitOn ':' s).getD 2 [])).getD 0 [])).isSome = true ∧
         (parseUintHex8 ((splitOn '.' ((splitOn ':' s).getD 2 [])).getD 1 [])).isSome = true)) ∧
    (∀ (s : GoStr) (p : PCILocation), convertLocation s = .ok p →
        parseUintHex8 ((splitOn ':' s).getD 1 []) = some p.bus ∧
        parseUintHex8 ((splitOn '.' ((splitOn ':' s).getD 2 [])).getD 0 []) = some p.device ∧
        parseUintHex8 ((splitOn '.' ((splitOn ':' s).getD 2 [])).getD 1 []) = some p.function) ∧
    (∀ (s : GoStr) (v : Nat), parseUintHex8 s = some v → v ≤ 255) ∧
    (∀ (s : GoStr) (v : Nat), s ≠ [] → hexValAux s 0 = some v → 255 < v →
        parseUintHex8 s = none) ∧
    convertLocation "0000:08:01.0".data = .ok ⟨8, 1, 0⟩ ∧
    convertLocation "bad:input".data = .error .invalidLocation := by
  refine ⟨?_, ?_, fun s v h => parseUintHex8_le h,
    fun s v hs h hv => parseUintHex8_wide hs h hv, by decide, by decide⟩
  · intro s
    constructor
    · rintro ⟨p, hp⟩
      simp only [convertLocation] at hp
      split at hp
      · cases hp
      · rename_i h3
        push_neg at h3
        split at hp
        · cases hp
        · rename_i b hb
          split at hp
          · cases hp
          · rename_i h2
            push_neg at h2
            split at hp
            · cases hp
            · rename_i d hd
              split at hp
              · cases hp
              · rename_i f hf
                exact ⟨h3, by rw [hb]; rfl, h2, by rw [hd]; rfl, by rw [hf]; rfl⟩
    · rintro ⟨h3, hb, h2, hd, hf⟩
      rw [Option.isSome_iff_exists] at hb hd hf
      obtain ⟨b, hb⟩ := hb
      obtain ⟨d, hd⟩ := hd
      obtain ⟨f, hf⟩ := hf
      refine ⟨⟨b % 256, d % 256, f % 256⟩, ?_⟩
      simp only [convertLocation]
      rw [if_neg (fun hne => hne h3)]
      simp only [hb]
      rw [if_neg (fun hne => hne h2)]
      simp only [hd, hf]
  · intro s p h
    simp only [convertLocation] at h
    split at h
    · cases h
    · split at h
      · cases h
      · rename_i b hb
        split at h
        · cases h
        · split at h
          · cases h
          · rename_i d hd
            split at h
            · cases h
            · rename_i f hf
              injection h with h
              subst h
              have hb' := parseUintHex8_le hb
              have hd' := parseUintHex8_le hd
              have hf' := parseUintHex8_le hf
              refine ⟨?_, ?_, ?_⟩
              · rw [hb]
                show some b = some (b % 256)
                rw [Nat.mod_eq_of_lt (by omega)]
              · rw [hd]
                show some d = some (d % 256)
                rw [Nat.mod_eq_of_lt (by omega)]
              · rw [hf]
                show some f = some (f % 256)
                rw [Nat.mod_eq_of_lt (by omega)]

/-- C6, witness for the amended theorem: the field characterisation applied
at the spec's own example, the 8-bit bound at `ff`, and the wide-field
failure at `1ff`. -/
theorem claim6_amended_witness :
    (parseUintHex8 ((splitOn ':' "0000:08:01.0".data).getD 1 []) = some 8 ∧
     parseUintHex8 ((splitOn '.' ((splitOn ':' "0000:08:01.0".data).getD 2 [])).getD 0 []) =
       some 1 ∧
     parseUintHex8 ((splitOn '.' ((splitOn ':' "0000:08:01.0".data).getD 2 [])).getD 1 []) =
       some 0) ∧
    (255 : Nat) ≤ 255 ∧
    parseUintHex8 "1ff".data = none :=
  ⟨claim6_amended.2.1 "0000:08:01.0".data ⟨8, 1, 0⟩ (by decide),
   claim6_amended.2.2.1 "ff".data 255 (by decide),
   claim6_amended.2.2.2.1 "1ff".data 511 (by decide) (by decide) (by decide)⟩

/-! ### Round-trip of the canonical display form through the Windows parser -/

theorem decDigit?_digitChar (d : Nat) (h : d ≤ 9) :
    decDigit? (Nat.digitChar d) = some d := by
  interval_cases d <;> decide

theorem digitChar_not_space (d : Nat) (h : d ≤ 9) :
    isSpaceB (Nat.digitChar d) = false := by
  interval_cases d <;> decide

theorem digitChar_ne_sign (d : Nat) (h : d ≤ 9) :
    Nat.digitChar d ≠ '+' ∧ Nat.digitChar d ≠ '-' := by
  interval_cases d <;> decide

theorem decValAux_append (xs ys : List Char) (a : Nat) :
    decValAux (xs ++ ys) a =
      match decValAux xs a with
      | some v => decValAux ys v
      | none => none := by
  induction xs generalizing a with
  | nil => simp [decValAux]
  | cons c cs ih =>
    cases hc : decDigit? c with
    | none => simp [decValAux, hc]
    | some d => simp [decValAux, hc, ih]

theorem natDec_small {n : Nat} (h : n < 10) : natDec n = [Nat.digitChar n] := by
  unfold natDec
  rw [natDecAux, if_pos h]

theorem natDecAux_spec : ∀ fuel n, n < fuel →
    natDecAux fuel n ≠ [] ∧
    (∀ c ∈ natDecAux fuel n, ∃ d, d ≤ 9 ∧ c = Nat.digitChar d) ∧
    ∀ a, decValAux (natDecAux fuel n) a =
      some (a * 10 ^ (natDecAux fuel n).length + n) := by
  intro fuel
  induction fuel with
  | zero => intro n h; omega
  | succ fuel ih =>
    intro n h
    by_cases h10 : n < 10
    · rw [natDecAux, if_pos h10]
      refine ⟨by simp, ?_, ?_⟩
      · intro c hc
        rcases List.mem_singleton.mp hc with rfl
        exact ⟨n, by omega, rfl⟩
      · intro a
        simp only [decValAux, decDigit?_digitChar n (by omega)]
        simp
    · rw [natDecAux, if_neg h10]
      have hrec : n / 10 < fuel := by
        have := Nat.div_lt_self (show 0 < n by omega) (show 1 < 10 by omega)
        omega
      obtain ⟨hne, hdig, hval⟩ := ih (n / 10) hrec
      refine ⟨by simp, ?_, ?_⟩
      · intro c hc
        rcases List.mem_append.mp hc with hc | hc
        · exact hdig c hc
        · rcases List.mem_singleton.mp hc with rfl
          exact ⟨n % 10, by omega, rfl⟩
      · intro a
        rw [decValAux_append, hval a]
        simp only [decValAux, decDigit?_digitChar (n % 10) (by omega)]
        have hmod : n / 10 * 10 + n % 10 = n := by omega
        congr 1
        rw [List.length_append]
        calc (a * 10 ^ (natDecAux fuel (n / 10)).length + n / 10) * 10 + n % 10
            = a * (10 ^ (natDecAux fuel (n / 10)).length * 10) +
                (n / 10 * 10 + n % 10) := by ring
          _ = a * 10 ^ ((natDecAux fuel (n / 10)).length + 1) + n := by
              rw [hmod, pow_succ]

theorem fieldsAux_flush : ∀ (cs acc : List Char),
    (∀ c ∈ cs, isSpaceB c = false) → (cs ≠ [] ∨ acc ≠ []) →
    fieldsAux cs acc = [acc.reverse ++ cs] := by
  intro cs
  induction cs with
  | nil =>
    intro acc h hne
    rcases hne with hne | hne
    · exact absurd rfl hne
    · rw [fieldsAux, if_neg (by simpa using hne)]
      simp
  | cons c cs ih =>
    intro acc h hne
    have hc : isSpaceB c = false := h c (List.mem_cons_self c cs)
    rw [fieldsAux, if_neg (by simp [hc])]
    rw [ih (c :: acc) (fun x hx => h x (List.mem_cons_of_mem _ hx)) (Or.inr (by simp))]
    simp

theorem fields_token (t rest : List Char)
    (h : ∀ c ∈ t, isSpaceB c = false) (hne : t ≠ []) :
    fields (t ++ ' ' :: rest) = t :: fields rest := by
  suffices haux : ∀ acc, t ≠ [] ∨ acc ≠ [] →
      fieldsAux (t ++ ' ' :: rest) acc = (acc.reverse ++ t) :: fieldsAux rest [] by
    have := haux [] (Or.inl hne)
    simpa [fields] using this
  clear hne
  induction t with
  | nil =>
    intro acc hne
    rcases hne with hne | hne
    · exact absurd rfl hne
    · rw [List.nil_append, fieldsAux, if_pos (by decide)]
      rw [if_neg (by simpa using hne)]
      simp
  | cons c t' ih =>
    intro acc _
    have hc : isSpaceB c = false := h c (List.mem_cons_self c t')
    rw [List.cons_append, fieldsAux, if_neg (by simp [hc])]
    rw [ih (fun x hx => h x (List.mem_cons_of_mem _ hx)) (c :: acc) (Or.inr (by simp))]
    simp

theorem fields_last (t : List Char)
    (h : ∀ c ∈ t, isSpaceB c = false) (hne : t ≠ []) :
    fields t = [t] := by
  have := fieldsAux_flush t [] h (Or.inl hne)
  simpa [fields] using this

theorem atoiGo_natDec (n : Nat) (hn : n ≤ MAX_INT64) :
    atoiGo (natDec n) = some ((n : Nat) : Int) := by
  have hne : natDec n ≠ [] := (natDecAux_spec (n + 1) n (by omega)).1
  have hdig : ∀ c ∈ natDec n, ∃ d, d ≤ 9 ∧ c = Nat.digitChar d :=
    (natDecAux_spec (n + 1) n (by omega)).2.1
  have hval : decValAux (natDec n) 0 = some n := by
    have := (natDecAux_spec (n + 1) n (by omega)).2.2 0
    simpa using this
  cases hnd : natDec n with
  | nil => exact absurd hnd hne
  | cons c cs =>
    obtain ⟨d0, hd0, rfl⟩ := hdig c (by rw [hnd]; exact List.mem_cons_self _ _)
    rw [hnd] at hval
    simp only [atoiGo]
    rw [if_neg (digitChar_ne_sign d0 hd0).1, if_neg (digitChar_ne_sign d0 hd0).2]
    simp only [hval]
    rw [if_pos hn]

theorem intToUint8_ofNat (n : Nat) (h : n ≤ 255) : intToUint8 ((n : Nat) : Int) = n := by
  unfold intToUint8
  rw [Int.emod_eq_of_lt (by omega) (by omega)]
  simp

/-- C7. Round-trip of the location codec: a `PCILocation` with single-digit
bus and device and any 8-bit function, rendered by the canonical
`"PCI bus %d, device %d, function %d"` display form and re-parsed by the
Windows-dialect parser, comes back unchanged. -/
theorem claim7_roundTrip (b d f : Nat) (hb : b ≤ 9) (hd : d ≤ 9) (hf : f ≤ 255) :
    convertLocationWin (pciString ⟨b, d, f⟩) = .ok ⟨b, d, f⟩ := by
  have h255 : (255 : Nat) ≤ MAX_INT64 := by decide
  have hnb : natDec b = [Nat.digitChar b] := natDec_small (by omega)
  have hnd : natDec d = [Nat.digitChar d] := natDec_small (by omega)
  have hfdig : ∀ c ∈ natDec f, ∃ d0, d0 ≤ 9 ∧ c = Nat.digitChar d0 :=
    (natDecAux_spec (f + 1) f (by omega)).2.1
  have hfne : natDec f ≠ [] := (natDecAux_spec (f + 1) f (by omega)).1
  have hfsp : ∀ c ∈ natDec f, isSpaceB c = false := by
    intro c hc
    obtain ⟨d0, hd0, rfl⟩ := hfdig c hc
    exact digitChar_not_space d0 hd0
  have ht3 : ∀ c ∈ [Nat.digitChar b, ','], isSpaceB c = false := by
    intro c hc
    rcases List.mem_cons.mp hc with rfl | hc
    · exact digitChar_not_space b hb
    · rcases List.mem_singleton.mp hc with rfl
      decide
  have ht5 : ∀ c ∈ [Nat.digitChar d, ','], isSpaceB c = false := by
    intro c hc
    rcases List.mem_cons.mp hc with rfl | hc
    · exact digitChar_not_space d hd
    · rcases List.mem_singleton.mp hc with rfl
      decide
  have hps : pciString ⟨b, d, f⟩ =
      "PCI bus ".data ++ [Nat.digitChar b] ++ ", device ".data ++ [Nat.digitChar d] ++
        ", function ".data ++ natDec f := by
    simp only [pciString]
    rw [hnb, hnd]
  have hfields : fields (pciString ⟨b, d, f⟩) =
      [['P', 'C', 'I'], ['b', 'u', 's'], [Nat.digitChar b, ','],
       ['d', 'e', 'v', 'i', 'c', 'e'], [Nat.digitChar d, ','],
       ['f', 'u', 'n', 'c', 't', 'i', 'o', 'n'], natDec f] := by
    rw [hps]
    show fields (['P', 'C', 'I'] ++ ' ' :: (['b', 'u', 's'] ++ ' ' ::
      ([Nat.digitChar b, ','] ++ ' ' :: (['d', 'e', 'v', 'i', 'c', 'e'] ++ ' ' ::
        ([Nat.digitChar d, ','] ++ ' ' :: (['f', 'u', 'n', 'c', 't', 'i', 'o', 'n'] ++ ' ' ::
          natDec f)))))) = _
    rw [fields_token _ _ (by decide) (by decide), fields_token _ _ (by decide) (by decide),
      fields_token _ _ ht3 (by simp), fields_token _ _ (by decide) (by decide),
      fields_token _ _ ht5 (by simp), fields_token _ _ (by decide) (by decide),
      fields_last _ hfsp hfne]
  have hab : atoiGo [Nat.digitChar b] = some ((b : Nat) : Int) := by
    rw [← hnb]
    exact atoiGo_natDec b (by omega)
  have had : atoiGo [Nat.digitChar d] = some ((d : Nat) : Int) := by
    rw [← hnd]
    exact atoiGo_natDec d (by omega)
  have haf : atoiGo (natDec f) = some ((f : Nat) : Int) :=
    atoiGo_natDec f (by omega)
  have h8b : intToUint8 ((b : Nat) : Int) = b := intToUint8_ofNat b (by omega)
  have h8d : intToUint8 ((d : Nat) : Int) = d := intToUint8_ofNat d (by omega)
  have h8f : intToUint8 ((f : Nat) : Int) = f := intToUint8_ofNat f (by omega)
  simp [convertLocationWin, hfields, firstByteStr, hab, had, haf, h8b, h8d, h8f]

/-- C7, witness: the round trip at the spec's own example location. -/
theorem claim7_roundTrip_witness :
    convertLocationWin (pciString ⟨4, 1, 0⟩) = .ok ⟨4, 1, 0⟩ :=
  claim7_roundTrip 4 1 0 (by decide) (by decide) (by decide)

end Ivshmem
